import Mathlib

/-!
Verification of the report-generation pipeline in `src/report_generator.py`.

The script builds a sales table (columns Date/Category/Amount), computes a
summary dictionary and a per-category `groupby` aggregation, renders a chart,
and lays out a PDF.  We embed the data-flow faithfully:

* a pandas row becomes a `Record`; the `Date` is the day offset into
  `pd.date_range(start="2025-01-01", periods=100)` (so `0 ≤ date < 100`);
  the float `Amount` becomes an exact rational;
* `summary` (lines 37-43) becomes `summaryOf`; pandas returns `0.0` for
  `sum` and `NaN` for `mean`/`max`/`min` on an empty column, which we model
  with `Option ℚ` (`none` = NaN) for the three statistics that can be NaN;
* `category_totals = df.groupby("Category")["Amount"].agg(["count","sum","mean"])`
  (line 45) becomes `categoryStats`; pandas `groupby` with the default
  `sort=True` lists the distinct keys in ascending (lexicographic) order,
  which we model by sorting the deduplicated category list.
-/

namespace ReportGen

/-- One row of the sales `DataFrame`: `Date` as a day offset into the
100-day range starting 2025-01-01, `Category` a string, `Amount` an exact
rational standing for the generated float. -/
structure Record where
  date : Nat
  category : String
  amount : ℚ
deriving DecidableEq, Repr

/-- The `summary` dictionary of lines 37-43.  `mean`, `max`, `min` are
`Option ℚ`: pandas yields `NaN` for them on an empty column, modelled as
`none`.  `total` is `0` on an empty column, exactly as pandas' `sum`. -/
structure SummaryStats where
  count : Nat
  total : ℚ
  mean : Option ℚ
  max : Option ℚ
  min : Option ℚ
deriving DecidableEq, Repr

/-- Embedding of `pandas.Series.max`: `none` (NaN) on an empty column,
otherwise the greatest element. -/
def listMax : List ℚ → Option ℚ
  | [] => none
  | a :: l =>
    some (match listMax l with
          | none => a
          | some b => Max.max a b)

/-- Embedding of `pandas.Series.min`: `none` (NaN) on an empty column,
otherwise the least element. -/
def listMin : List ℚ → Option ℚ
  | [] => none
  | a :: l =>
    some (match listMin l with
          | none => a
          | some b => Min.min a b)

/-- Lines 37-43: the `summary` dict computed from the table, i.e.
`len(df)`, `df["Amount"].sum()`, `.mean()`, `.max()`, `.min()`. -/
def summaryOf (t : List Record) : SummaryStats :=
  let amts := t.map Record.amount
  { count := t.length
    total := amts.sum
    mean := if t.length = 0 then none else some (amts.sum / (t.length : ℚ))
    max := listMax amts
    min := listMin amts }

/-- One row of the `category_totals` DataFrame of line 45:
`groupby("Category")["Amount"].agg(["count", "sum", "mean"])`. -/
structure CatRow where
  category : String
  count : Nat
  total : ℚ
  mean : ℚ
deriving DecidableEq, Repr

/-- The distinct categories of the table in the order pandas `groupby`
(with its default `sort=True`) lists them: ascending lexicographic order. -/
def sortedCats (t : List Record) : List String :=
  ((t.map Record.category).dedup).insertionSort (· ≤ ·)

/-- Line 45: the `category_totals` aggregation — one row per distinct
category, holding the count, sum and mean of the amounts in that group. -/
def categoryStats (t : List Record) : List CatRow :=
  (sortedCats t).map fun c =>
    let g := (t.filter fun r => r.category == c).map Record.amount
    { category := c
      count := g.length
      total := g.sum
      mean := g.sum / (g.length : ℚ) }

/-- The three-record table of the spec's end-to-end scenario
(2025-01-01 is day offset 0). -/
def t3 : List Record :=
  [ { date := 0, category := "Books", amount := 100 }
  , { date := 1, category := "Books", amount := 200 }
  , { date := 2, category := "Food", amount := 50 } ]

/-- Round to the nearest integer, ties to even — the rounding used when a
decimal value is rendered by Python's float formatting and by `np.round`. -/
def rnd (q : ℚ) : ℤ :=
  if q - ⌊q⌋ < 1/2 then ⌊q⌋
  else if (1 : ℚ)/2 < q - ⌊q⌋ then ⌊q⌋ + 1
  else if ⌊q⌋ % 2 = 0 then ⌊q⌋ else ⌊q⌋ + 1

/-- Insert a comma after every third character; applied to the reversed
digit list this yields the thousands grouping of Python's `,` format flag. -/
def sep3 : List Char → List Char
  | [] => []
  | [a] => [a]
  | [a, b] => [a, b]
  | [a, b, c] => [a, b, c]
  | a :: b :: c :: rest => a :: b :: c :: ',' :: sep3 rest

/-- The decimal digit character for `n < 10`. -/
def digitChar (n : Nat) : Char := Char.ofNat (48 + n)

/-- Decimal rendering of a natural number with thousands separators. -/
def natSep (n : Nat) : String :=
  String.mk (sep3 (Nat.toDigits 10 n).reverse).reverse

/-- Render a non-negative amount of cents as a grouped integer part, a dot
and exactly two decimal digits. -/
def fmtCents (n : Nat) : String :=
  natSep (n / 100) ++ "." ++ String.mk [digitChar (n % 100 / 10), digitChar (n % 100 % 10)]

/-- Embedding of Python's `f"{v:,.2f}"` (line 74) on the exact rational
standing for the float `v`: thousands separators and two decimal places. -/
def fmt2 (q : ℚ) : String :=
  (if q < 0 then "-" else "") ++ fmtCents (rnd (q * 100)).natAbs

/-- `f"{v:,.2f}"` on a possibly-NaN statistic: Python renders the float
`nan` as the string `nan`. -/
def fmtOpt : Option ℚ → String
  | none => "nan"
  | some q => fmt2 q

/-- Line 74: `data_summary = [[k, f"{v:,.2f}" if isinstance(v, float) else v]
for k, v in summary.items()]`, followed by the cell text reportlab shows.
`Total Transactions` is `len(df)`, an `int`, so the `isinstance(v, float)`
test fails for it and it is placed in the table unformatted; the other four
values are floats and are formatted. -/
def dataSummary (s : SummaryStats) : List (String × String) :=
  [ ("Total Transactions", Nat.repr s.count)
  , ("Total Amount", fmt2 s.total)
  , ("Average Amount", fmtOpt s.mean)
  , ("Highest Sale", fmtOpt s.max)
  , ("Lowest Sale", fmtOpt s.min) ]

/-- A 1234-row table, used to exhibit the unformatted transaction count. -/
def t1234 : List Record :=
  List.replicate 1234 { date := 0, category := "Books", amount := 100 }

end ReportGen

open ReportGen

/-- C1, claim as stated is false: on the empty table the aggregation does
not raise any error — lines 37-43 applied to an empty column return exactly
the values the claim forbids: count 0, total 0 and NaN (`none`)
mean/max/min. -/
theorem C1_empty_table_counterexample :
    summaryOf [] =
      { count := 0, total := 0, mean := none, max := none, min := none } ∧
    (summaryOf []).total = 0 ∧ (summaryOf []).mean = none := by
  refine ⟨rfl, rfl, rfl⟩

/-- C1 (amended): aggregating the empty Table does not raise an InputError;
it returns SummaryStats with count 0, total 0 and undefined (NaN, modelled
`none`) mean, max and min. -/
theorem C1_empty_table_returns_nan :
    summaryOf [] =
      { count := 0, total := 0, mean := none, max := none, min := none } :=
  rfl

/-- C2: on the spec's three-record scenario table the aggregation returns
count 3, total 350, mean 350/3 (rendered `116.67` by the report's
two-decimal format), max 200, min 50, and the per-category rows
Books (count 2, total 300, mean 150) and Food (count 1, total 50, mean 50),
in that order. -/
theorem C2_end_to_end_scenario :
    summaryOf t3 =
      { count := 3, total := 350, mean := some (350/3), max := some 200, min := some 50 } ∧
    fmt2 ((350:ℚ)/3) = "116.67" ∧
    categoryStats t3 =
      [ { category := "Books", count := 2, total := 300, mean := 150 }
      , { category := "Food", count := 1, total := 50, mean := 50 } ] := by
  have hBF : ("Books" : String) ≤ "Food" := by
    simp [String.le_iff_toList_le]
    decide
  refine ⟨?_, ?_, ?_⟩
  · simp [summaryOf, t3, listMax, listMin, max_def, min_def]
    norm_num
  · have h : (350:ℚ)/3 * 100 = 35000/3 := by ring
    have hf : ⌊(35000:ℚ)/3⌋ = 11666 := by norm_num [Int.floor_eq_iff]
    have hr : rnd ((350:ℚ)/3 * 100) = 11667 := by
      rw [h]
      unfold rnd
      rw [hf]
      norm_num
    unfold fmt2
    rw [hr, if_neg (by norm_num)]
    decide
  · simp [categoryStats, sortedCats, t3, List.insertionSort, List.orderedInsert, hBF]
    norm_num

/-- C7, claim as stated is false: the transaction count is an `int`, so the
`isinstance(v, float)` test on line 74 leaves it unformatted.  For a
1234-row table its cell reads `1234` — no thousands separator and no two
decimal places — while the claimed format would render `1,234.00`. -/
theorem C7_count_cell_counterexample :
    (dataSummary (summaryOf t1234)).head? = some ("Total Transactions", "1234") ∧
    fmt2 ((1234:ℚ)) = "1,234.00" ∧
    "1234" ≠ "1,234.00" ∧
    ¬ (',' ∈ "1234".data) ∧ ¬ ('.' ∈ "1234".data) := by
  refine ⟨?_, ?_, by decide, by decide, by decide⟩
  · have h : (summaryOf t1234).count = 1234 := by
      show t1234.length = 1234
      unfold t1234
      exact List.length_replicate _ _
    simp [dataSummary, h]
    decide
  · have hr : rnd ((1234:ℚ) * 100) = 123400 := by
      unfold rnd
      norm_num
    unfold fmt2
    rw [hr, if_neg (by norm_num)]
    decide

/-- C7 (amended): in the summary table every float statistic (total, mean,
max, min) is rendered by the two-decimal thousands-separated format, while
the transaction count, being an `int`, is placed in its row unformatted;
every string the float format produces ends in a dot followed by exactly
two decimal digits. -/
theorem C7_summary_table_formatting (s : SummaryStats) :
    dataSummary s =
      [ ("Total Transactions", Nat.repr s.count)
      , ("Total Amount", fmt2 s.total)
      , ("Average Amount", fmtOpt s.mean)
      , ("Highest Sale", fmtOpt s.max)
      , ("Lowest Sale", fmtOpt s.min) ] ∧
    ∀ q : ℚ, ∃ pre d₁ d₂, fmt2 q = pre ++ "." ++ String.mk [d₁, d₂] := by
  refine ⟨rfl, fun q => ?_⟩
  refine ⟨(if q < 0 then "-" else "") ++ natSep ((rnd (q * 100)).natAbs / 100),
    digitChar ((rnd (q * 100)).natAbs % 100 / 10),
    digitChar ((rnd (q * 100)).natAbs % 100 % 10), ?_⟩
  unfold fmt2 fmtCents
  simp [String.append_assoc]

namespace ReportGen

/-- The size of a category's group equals that category's multiplicity in
the projected category column. -/
theorem groupLength_eq_count (t : List Record) (c : String) :
    ((t.filter fun r => r.category == c).map Record.amount).length
      = (t.map Record.category).count c := by
  rw [List.length_map]
  have h : (t.map Record.category).count c
      = List.countP (fun r => r.category == c) t := by
    rw [show (t.map Record.category).count c
          = List.countP (fun x => x == c) (t.map Record.category) from rfl,
      List.countP_map]
    rfl
  rw [h, List.countP_eq_length_filter]

/-- Summing the group totals over any duplicate-free set of categories that
covers the table accounts for every row's amount exactly once. -/
theorem sum_filter_amounts (F : Finset String) (t : List Record)
    (hF : ∀ r ∈ t, r.category ∈ F) :
    (∑ c ∈ F, ((t.filter fun r => r.category == c).map Record.amount).sum)
      = (t.map Record.amount).sum := by
  induction t with
  | nil => simp
  | cons r t ih =>
    have hr : r.category ∈ F := hF r (List.mem_cons_self r t)
    have ht : ∀ x ∈ t, x.category ∈ F := fun x hx => hF x (List.mem_cons_of_mem r hx)
    have hsplit : ∀ c,
        ((List.filter (fun x => x.category == c) (r :: t)).map Record.amount).sum
          = (if r.category = c then r.amount else 0)
            + ((List.filter (fun x => x.category == c) t).map Record.amount).sum := by
      intro c
      by_cases h : r.category = c
      · simp [List.filter_cons, h]
      · simp [List.filter_cons, h]
    calc (∑ c ∈ F, ((List.filter (fun x => x.category == c) (r :: t)).map Record.amount).sum)
        = ∑ c ∈ F, ((if r.category = c then r.amount else 0)
            + ((List.filter (fun x => x.category == c) t).map Record.amount).sum) :=
          Finset.sum_congr rfl fun c _ => hsplit c
      _ = (∑ c ∈ F, if r.category = c then r.amount else 0)
            + ∑ c ∈ F, ((List.filter (fun x => x.category == c) t).map Record.amount).sum :=
          Finset.sum_add_distrib
      _ = r.amount + (t.map Record.amount).sum := by
          rw [Finset.sum_ite_eq F r.category fun _ => r.amount, if_pos hr, ih ht]
      _ = ((r :: t).map Record.amount).sum := by
          rw [List.map_cons, List.sum_cons]

end ReportGen

/-- C3: for every table, the overall transaction count equals the sum of
the per-category counts — the `groupby` partitions the rows. -/
theorem C3_count_invariant (t : List Record) :
    (summaryOf t).count = ((categoryStats t).map CatRow.count).sum := by
  have hmap : (categoryStats t).map CatRow.count
      = (sortedCats t).map fun c => (t.map Record.category).count c := by
    unfold categoryStats
    rw [List.map_map]
    exact List.map_congr_left fun c _ => groupLength_eq_count t c
  rw [show (summaryOf t).count = t.length from rfl, hmap]
  unfold sortedCats
  have hperm :=
    (List.perm_insertionSort (· ≤ ·) ((t.map Record.category).dedup)).map
      fun c => (t.map Record.category).count c
  rw [hperm.sum_eq, show t.length = (t.map Record.category).length
    from (List.length_map t Record.category).symm]
  exact (List.sum_map_count_dedup_eq_length _).symm

/-- C4: for every table, the overall total equals the sum of the
per-category totals, exactly, over exact rational arithmetic. -/
theorem C4_total_invariant (t : List Record) :
    (summaryOf t).total = ((categoryStats t).map CatRow.total).sum := by
  have hmap : (categoryStats t).map CatRow.total
      = (sortedCats t).map
          fun c => ((t.filter fun r => r.category == c).map Record.amount).sum := by
    unfold categoryStats
    rw [List.map_map]
    rfl
  rw [show (summaryOf t).total = (t.map Record.amount).sum from rfl, hmap]
  unfold sortedCats
  have hperm :=
    (List.perm_insertionSort (· ≤ ·) ((t.map Record.category).dedup)).map
      fun c => ((t.filter fun r => r.category == c).map Record.amount).sum
  rw [hperm.sum_eq]
  rw [← List.sum_toFinset _ (List.nodup_dedup _)]
  exact (sum_filter_amounts _ t fun r hr => by
    rw [List.mem_toFinset, List.mem_dedup]
    exact List.mem_map_of_mem Record.category hr).symm

namespace ReportGen

/-- Every element of the column is bounded by the column maximum. -/
theorem le_listMax : ∀ {l : List ℚ} {m : ℚ}, listMax l = some m → ∀ a ∈ l, a ≤ m := by
  intro l
  induction l with
  | nil =>
    intro m hm a ha
    exact absurd ha (List.not_mem_nil a)
  | cons b l ih =>
    intro m hm a ha
    rw [listMax] at hm
    have hm' := Option.some.inj hm
    rcases List.mem_cons.mp ha with rfl | hal
    · cases h' : listMax l with
      | none =>
        rw [h'] at hm'
        exact le_of_eq hm'
      | some c =>
        rw [h'] at hm'
        calc a ≤ Max.max a c := le_max_left a c
          _ = m := hm'
    · cases h' : listMax l with
      | none =>
        have hl : l = [] := by
          cases l with
          | nil => rfl
          | cons d l => rw [listMax] at h'; exact absurd h' (Option.some_ne_none _)
        rw [hl] at hal
        exact absurd hal (List.not_mem_nil a)
      | some c =>
        rw [h'] at hm'
        calc a ≤ c := ih h' a hal
          _ ≤ Max.max b c := le_max_right b c
          _ = m := hm'

/-- The column maximum is one of the column's entries. -/
theorem listMax_mem : ∀ {l : List ℚ} {m : ℚ}, listMax l = some m → m ∈ l := by
  intro l
  induction l with
  | nil =>
    intro m hm
    rw [listMax] at hm
    exact absurd hm (Option.noConfusion)
  | cons b l ih =>
    intro m hm
    rw [listMax] at hm
    have hm' := Option.some.inj hm
    cases h' : listMax l with
    | none =>
      rw [h'] at hm'
      exact hm' ▸ List.mem_cons_self b l
    | some c =>
      rw [h'] at hm'
      rcases max_choice b c with h | h
      · exact (h.symm.trans hm') ▸ List.mem_cons_self b l
      · exact List.mem_cons_of_mem b ((h.symm.trans hm') ▸ ih h')

/-- Every element of the column is bounded below by the column minimum. -/
theorem listMin_le : ∀ {l : List ℚ} {m : ℚ}, listMin l = some m → ∀ a ∈ l, m ≤ a := by
  intro l
  induction l with
  | nil =>
    intro m hm a ha
    exact absurd ha (List.not_mem_nil a)
  | cons b l ih =>
    intro m hm a ha
    rw [listMin] at hm
    have hm' := Option.some.inj hm
    rcases List.mem_cons.mp ha with rfl | hal
    · cases h' : listMin l with
      | none =>
        rw [h'] at hm'
        exact le_of_eq hm'.symm
      | some c =>
        rw [h'] at hm'
        calc m = Min.min a c := hm'.symm
          _ ≤ a := min_le_left a c
    · cases h' : listMin l with
      | none =>
        have hl : l = [] := by
          cases l with
          | nil => rfl
          | cons d l => rw [listMin] at h'; exact absurd h' (Option.some_ne_none _)
        rw [hl] at hal
        exact absurd hal (List.not_mem_nil a)
      | some c =>
        rw [h'] at hm'
        calc m = Min.min b c := hm'.symm
          _ ≤ c := min_le_right b c
          _ ≤ a := ih h' a hal

end ReportGen

/-- C5: whenever the table is non-empty, the summary's minimum is at most
its mean, which is at most its maximum (the three statistics are defined,
i.e. not NaN, exactly in this case). -/
theorem C5_max_ge_mean_ge_min (t : List Record) (h : t ≠ []) :
    ∃ m mx mn : ℚ, (summaryOf t).mean = some m ∧ (summaryOf t).max = some mx ∧
      (summaryOf t).min = some mn ∧ mn ≤ m ∧ m ≤ mx := by
  have hlen : t.length ≠ 0 := fun h0 => h (List.length_eq_zero.mp h0)
  have hpos : (0:ℚ) < (t.length : ℚ) := by
    exact_mod_cast Nat.pos_of_ne_zero hlen
  obtain ⟨mx, hmx⟩ : ∃ mx, listMax (t.map Record.amount) = some mx := by
    cases hamts : t.map Record.amount with
    | nil => exact absurd (List.map_eq_nil.mp hamts) h
    | cons b l' => rw [listMax]; exact ⟨_, rfl⟩
  obtain ⟨mn, hmn⟩ : ∃ mn, listMin (t.map Record.amount) = some mn := by
    cases hamts : t.map Record.amount with
    | nil => exact absurd (List.map_eq_nil.mp hamts) h
    | cons b l' => rw [listMin]; exact ⟨_, rfl⟩
  refine ⟨(t.map Record.amount).sum / (t.length : ℚ), mx, mn, ?_, hmx, hmn, ?_, ?_⟩
  · show (if t.length = 0 then none else some ((t.map Record.amount).sum / (t.length : ℚ)))
      = some ((t.map Record.amount).sum / (t.length : ℚ))
    rw [if_neg hlen]
  · rw [le_div_iff₀ hpos]
    have hb := List.card_nsmul_le_sum (t.map Record.amount) mn (listMin_le hmn)
    rw [nsmul_eq_mul, List.length_map] at hb
    calc mn * (t.length : ℚ) = (t.length : ℚ) * mn := mul_comm _ _
      _ ≤ (t.map Record.amount).sum := hb
  · rw [div_le_iff₀ hpos]
    have hb := List.sum_le_card_nsmul (t.map Record.amount) mx (le_listMax hmx)
    rw [nsmul_eq_mul, List.length_map] at hb
    calc (t.map Record.amount).sum ≤ (t.length : ℚ) * mx := hb
      _ = mx * (t.length : ℚ) := mul_comm _ _

/-- C5 witness: the property instantiated at the non-empty scenario table. -/
theorem C5_witness :
    t3 ≠ [] ∧ ∃ m mx mn : ℚ, (summaryOf t3).mean = some m ∧
      (summaryOf t3).max = some mx ∧ (summaryOf t3).min = some mn ∧
      mn ≤ m ∧ m ≤ mx :=
  ⟨by decide, C5_max_ge_mean_ge_min t3 (by decide)⟩

/-- C6: the rows of the per-category aggregation are listed in a stable
enumeration order of the categories — ascending lexicographic string order,
the order pandas `groupby(sort=True)` uses — with exactly one row per
distinct category present in the table. -/
theorem C6_rows_ordered (t : List Record) :
    ((categoryStats t).map CatRow.category).Sorted (· ≤ ·) ∧
    ((categoryStats t).map CatRow.category).Nodup ∧
    ∀ c, (c ∈ (categoryStats t).map CatRow.category ↔ c ∈ t.map Record.category) := by
  have hcats : (categoryStats t).map CatRow.category = sortedCats t := by
    unfold categoryStats
    rw [List.map_map]
    exact (List.map_congr_left fun c _ => rfl).trans (List.map_id _)
  rw [hcats]
  unfold sortedCats
  refine ⟨List.sorted_insertionSort _ _, ?_, ?_⟩
  · exact ((List.perm_insertionSort _ _).nodup_iff).mpr (List.nodup_dedup _)
  · intro c
    rw [(List.perm_insertionSort _ _).mem_iff, List.mem_dedup]

/-- C10: for a non-empty table the summary mean is exactly total divided by
count, and every per-category row's mean is exactly that row's total
divided by its count, over exact rational arithmetic. -/
theorem C10_mean_eq_total_div_count (t : List Record) (h : t ≠ []) :
    (∃ m, (summaryOf t).mean = some m
      ∧ m = (summaryOf t).total / ((summaryOf t).count : ℚ)) ∧
    ∀ row ∈ categoryStats t, row.mean = row.total / (row.count : ℚ) := by
  constructor
  · have hlen : t.length ≠ 0 := fun h0 => h (List.length_eq_zero.mp h0)
    refine ⟨(t.map Record.amount).sum / (t.length : ℚ), ?_, rfl⟩
    show (if t.length = 0 then none else some ((t.map Record.amount).sum / (t.length : ℚ)))
      = some ((t.map Record.amount).sum / (t.length : ℚ))
    rw [if_neg hlen]
  · intro row hrow
    unfold categoryStats at hrow
    obtain ⟨c, _, rfl⟩ := List.mem_map.mp hrow
    rfl

/-- C10 witness: the relation instantiated at the scenario table and its
Books row. -/
theorem C10_witness :
    t3 ≠ [] ∧
    (∃ m, (summaryOf t3).mean = some m
      ∧ m = (summaryOf t3).total / ((summaryOf t3).count : ℚ)) ∧
    ({ category := "Books", count := 2, total := 300, mean := 150 } : CatRow) ∈ categoryStats t3 ∧
    ({ category := "Books", count := 2, total := 300, mean := 150 } : CatRow).mean
      = ({ category := "Books", count := 2, total := 300, mean := 150 } : CatRow).total
        / (({ category := "Books", count := 2, total := 300, mean := 150 } : CatRow).count : ℚ) := by
  have ht : t3 ≠ [] := by decide
  have hmem : ({ category := "Books", count := 2, total := 300, mean := 150 } : CatRow)
      ∈ categoryStats t3 := by
    have hBF : ("Books" : String) ≤ "Food" := by
      simp [String.le_iff_toList_le]
      decide
    simp [categoryStats, sortedCats, t3, List.insertionSort, List.orderedInsert, hBF]
    norm_num
  exact ⟨ht, (C10_mean_eq_total_div_count t3 ht).1, hmem,
    (C10_mean_eq_total_div_count t3 ht).2 _ hmem⟩

namespace ReportGen

/-- State update of the modelled pseudo-random generator.  NumPy's global
Mersenne Twister lives outside this repository; what the claims need of it
is only that the draw stream is a deterministic function of the seed, so we
stand in a 32-bit linear congruential update for the external generator. -/
def lcgStep (s : Nat) : Nat := (1664525 * s + 1013904223) % 4294967296

/-- The generator state right after `np.random.seed(seed)` (line 25). -/
def seedInit (seed : Nat) : Nat := lcgStep (seed % 4294967296)

/-- The modelled generator's `n`-th draw after seeding with `seed`. -/
def lcgAt (seed n : Nat) : Nat := lcgStep^[n] (seedInit seed)

/-- Line 27: the fixed enumerated category set. -/
def categoriesList : List String := ["Electronics", "Clothing", "Books", "Food"]

/-- Line 26: `pd.date_range` has 100 periods, so date offsets are `< 100`. -/
def numDates : Nat := 100

/-- Lines 29-31: each column draws 120 values. -/
def numRecords : Nat := 120

/-- `np.random.uniform(50, 1000)` modelled on a draw `v`: a rational in
`[50, 1000)` with up to six decimal places. -/
def uniformAmount (v : Nat) : ℚ := 50 + ((v % 950000000 : Nat) : ℚ) / 1000000

/-- `np.round(x, 2)` (line 31): round to two decimal places, ties to even. -/
def roundAmount (q : ℚ) : ℚ := ((rnd (q * 100) : ℤ) : ℚ) / 100

/-- The `i`-th row of the generated table (lines 28-32): the `Date` column
uses draws 1..120, the `Category` column draws 121..240 (`np.random.choice`
indexes into its argument), the `Amount` column draws 241..360. -/
def mkRecord (seed i : Nat) : Record :=
  { date := lcgAt seed (1 + i) % numDates
  , category := categoriesList.getD (lcgAt seed (121 + i) % 4) ""
  , amount := roundAmount (uniformAmount (lcgAt seed (241 + i))) }

/-- Lines 25-33: the sample dataset, a table of 120 records drawn from the
generator stream seeded on line 25. -/
def genTable (seed : Nat) : List Record :=
  (List.range numRecords).map (mkRecord seed)

/-- One run of the Data Source.  Whatever generator state `st` the process
starts in, line 25 executes `np.random.seed(10)` first, so the produced
table depends only on the literal seed 10 and not on `st`. -/
def runDataSource (_st : Nat) : List Record := genTable 10

end ReportGen

/-- C8: two runs of the Data Source — regardless of the generator state
each process starts with — produce identical tables, hence in particular
the same record count (120) and the same set of distinct categories. -/
theorem C8_two_run_determinism (st₁ st₂ : Nat) :
    runDataSource st₁ = runDataSource st₂ ∧
    (runDataSource st₁).length = (runDataSource st₂).length ∧
    ((runDataSource st₁).map Record.category).toFinset
      = ((runDataSource st₂).map Record.category).toFinset ∧
    (runDataSource st₁).length = 120 := by
  refine ⟨rfl, rfl, rfl, ?_⟩
  show ((List.range numRecords).map (mkRecord 10)).length = 120
  rw [List.length_map, List.length_range]
  rfl

namespace ReportGen

/-- Rounding never goes below the floor. -/
theorem floor_le_rnd (q : ℚ) : ⌊q⌋ ≤ rnd q := by
  unfold rnd
  split_ifs <;> omega

/-- Rounding never exceeds the floor plus one. -/
theorem rnd_le_floor_add_one (q : ℚ) : rnd q ≤ ⌊q⌋ + 1 := by
  unfold rnd
  split_ifs <;> omega

/-- The modelled uniform draw lands in `[50, 1000)`, as documented for
`np.random.uniform(50, 1000)`. -/
theorem uniform_bounds (v : Nat) : 50 ≤ uniformAmount v ∧ uniformAmount v < 1000 := by
  unfold uniformAmount
  constructor
  · have h0 : (0:ℚ) ≤ ((v % 950000000 : Nat) : ℚ) / 1000000 :=
      div_nonneg (Nat.cast_nonneg _) (by norm_num)
    linarith
  · have hlt : ((v % 950000000 : Nat) : ℚ) < 950000000 := by
      exact_mod_cast Nat.mod_lt v (by norm_num)
    have hdiv : ((v % 950000000 : Nat) : ℚ) / 1000000 < 950 := by
      rw [div_lt_iff₀ (by norm_num)]
      linarith
    linarith

/-- After the two-decimal rounding, the amount stays within `[50, 1000]`. -/
theorem roundAmount_mem_range (v : Nat) :
    50 ≤ roundAmount (uniformAmount v) ∧ roundAmount (uniformAmount v) ≤ 1000 := by
  obtain ⟨h50, h1000⟩ := uniform_bounds v
  have hfl : (5000:ℤ) ≤ ⌊uniformAmount v * 100⌋ := Int.le_floor.mpr (by push_cast; linarith)
  have hfu : ⌊uniformAmount v * 100⌋ < 100000 := Int.floor_lt.mpr (by push_cast; linarith)
  have hr1 : (5000:ℤ) ≤ rnd (uniformAmount v * 100) := le_trans hfl (floor_le_rnd _)
  have hr2 : rnd (uniformAmount v * 100) ≤ 100000 :=
    le_trans (rnd_le_floor_add_one _) (by omega)
  have hc1 : ((5000:ℤ):ℚ) ≤ ((rnd (uniformAmount v * 100) : ℤ) : ℚ) := Int.cast_le.mpr hr1
  have hc2 : ((rnd (uniformAmount v * 100) : ℤ) : ℚ) ≤ ((100000:ℤ):ℚ) := Int.cast_le.mpr hr2
  push_cast at hc1 hc2
  unfold roundAmount
  constructor
  · rw [le_div_iff₀ (by norm_num : (0:ℚ) < 100)]
    linarith
  · rw [div_le_iff₀ (by norm_num : (0:ℚ) < 100)]
    linarith

/-- The rounded amount is an integer number of cents: two decimal places. -/
theorem roundAmount_cents (v : Nat) :
    ∃ n : ℤ, roundAmount (uniformAmount v) * 100 = (n : ℚ) := by
  refine ⟨rnd (uniformAmount v * 100), ?_⟩
  unfold roundAmount
  field_simp

end ReportGen

/-- C9: every record the Data Source produces has a non-negative amount in
the bounded range `[50, 1000]` that is a whole number of cents (two decimal
places), a category from the fixed enumerated set, and a date inside the
bounded 100-day historical range. -/
theorem C9_record_ranges (st : Nat) (r : Record) (hr : r ∈ runDataSource st) :
    0 ≤ r.amount ∧ 50 ≤ r.amount ∧ r.amount ≤ 1000 ∧
    (∃ n : ℤ, r.amount * 100 = (n : ℚ)) ∧
    r.category ∈ categoriesList ∧ r.date < numDates := by
  obtain ⟨i, _, rfl⟩ := List.mem_map.mp hr
  obtain ⟨h50, h1000⟩ := roundAmount_mem_range (lcgAt 10 (241 + i))
  refine ⟨le_trans (by norm_num) h50, h50, h1000, roundAmount_cents _, ?_, ?_⟩
  · show categoriesList.getD (lcgAt 10 (121 + i) % 4) "" ∈ categoriesList
    have hlt : lcgAt 10 (121 + i) % 4 < categoriesList.length :=
      Nat.mod_lt _ (by norm_num)
    rw [List.getD_eq_getElem categoriesList "" hlt]
    exact List.getElem_mem hlt
  · show lcgAt 10 (1 + i) % numDates < numDates
    exact Nat.mod_lt _ (by decide)

/-- C9 witness: the first generated record, checked to satisfy all the
range constraints via the general theorem. -/
theorem C9_witness :
    mkRecord 10 0 ∈ runDataSource 0 ∧
    0 ≤ (mkRecord 10 0).amount ∧ 50 ≤ (mkRecord 10 0).amount ∧
    (mkRecord 10 0).amount ≤ 1000 ∧
    (∃ n : ℤ, (mkRecord 10 0).amount * 100 = (n : ℚ)) ∧
    (mkRecord 10 0).category ∈ categoriesList ∧ (mkRecord 10 0).date < numDates := by
  have hm : mkRecord 10 0 ∈ runDataSource 0 :=
    List.mem_map_of_mem (mkRecord 10) (List.mem_range.mpr (by decide))
  have h := C9_record_ranges 0 (mkRecord 10 0) hm
  exact ⟨hm, h.1, h.2.1, h.2.2.1, h.2.2.2.1, h.2.2.2.2.1, h.2.2.2.2.2⟩
